import Mathlib

/-!
Verification of the kubeedge motion-detection repository.

The development shallowly embeds the Python sources:
* `motion_detection/detector.py` — the `MotionDetector` hysteresis loop,
* `coap/server.py` — the CoAP observable resources and the rise/fall bridge,
* `coap-motion-classifier/classifier.py` — the observing classification client,
* `motion-classification/main.py` — the MQTT ingestion path.

Timestamps (`time.time()` floats in the source) are modelled as integers;
byte strings are modelled as `List Nat`.
-/

/-! ## Motion detector (motion_detection/detector.py) -/

/-- A bounding rectangle as returned by `cv2.boundingRect`: `(x, y, w, h)`. -/
structure Rect where
  x : Int
  y : Int
  w : Int
  h : Int
deriving DecidableEq, Repr

/-- Configuration of `MotionDetector.__init__`: `cooldown_sec`, `quiet_sec`
and the pad ratio `pad_ratio` represented as the fraction `padNum / padDen`
(so that `int(max(w, h) * pad_ratio)` becomes integer division). -/
structure DetCfg where
  cooldown : Int
  quiet : Int
  padNum : Nat
  padDen : Nat
deriving DecidableEq, Repr

/-- Mutable detector state: `self.motion_on`, `self.last_motion_seen_ts`,
`self.last_rise_ts`. -/
structure DetState where
  motionOn : Bool
  lastSeen : Int
  lastRise : Int
deriving DecidableEq, Repr

/-- Initial state from `MotionDetector.__init__`:
`motion_on = False`, `last_motion_seen_ts = 0.0`, `last_rise_ts = 0.0`. -/
def detInit : DetState := ⟨false, 0, 0⟩

/-- One loop iteration's input: the frame dimensions `H, W = frame.shape[:2]`,
the current time `now = time.time()`, and the result of
`_largest_contour` (`big`), `none` when no contour exceeds `min_contour_area`.
In the source `motion_now = big is not None`. -/
structure FrameInput where
  W : Int
  H : Int
  now : Int
  big : Option Rect
deriving DecidableEq, Repr

/-- The clamped crop rectangle `(x0, y0, x1, y1)` computed by
`MotionDetector._crop_with_pad`. -/
structure ClampRect where
  x0 : Int
  y0 : Int
  x1 : Int
  y1 : Int
deriving DecidableEq, Repr

/-- `pad = int(max(w, h) * self.pad_ratio)` with `pad_ratio = padNum / padDen`. -/
def padOf (w h : Int) (padNum padDen : Nat) : Int :=
  (max w h * (padNum : Int)) / (padDen : Int)

/-- `MotionDetector._crop_with_pad` (detector.py lines 46–52): clamp the padded
rectangle to the frame,
`x0 = max(0, x - pad)`, `y0 = max(0, y - pad)`,
`x1 = min(W, x + w + pad)`, `y1 = min(H, y + h + pad)`. -/
def cropWithPad (W H : Int) (r : Rect) (pad : Int) : ClampRect :=
  { x0 := max 0 (r.x - pad)
    y0 := max 0 (r.y - pad)
    x1 := min W (r.x + r.w + pad)
    y1 := min H (r.y + r.h + pad) }

/-- Events emitted by the loop: `on_rise(crop)` carries the clamped crop
region of the current frame (`None` only if no contour existed), `on_fall()`
carries nothing. -/
inductive DetEvent where
  | rise (crop : Option ClampRect)
  | fall
deriving DecidableEq, Repr

/-- The crop handed to `on_rise`: `crop = None` initially, and when
`big is not None`, `crop, rect = self._crop_with_pad(frame, cv2.boundingRect(big))`. -/
def cropOf (cfg : DetCfg) (f : FrameInput) : Option ClampRect :=
  f.big.map fun r => cropWithPad f.W f.H r (padOf r.w r.h cfg.padNum cfg.padDen)

/-- `if motion_now: self.last_motion_seen_ts = now` (detector.py line 75–76). -/
def updateSeen (s : DetState) (f : FrameInput) : DetState :=
  if f.big.isSome then { s with lastSeen := f.now } else s

/-- The rising-edge branch (detector.py lines 78–85):
`if not self.motion_on and motion_now and (now - self.last_rise_ts >= self.cooldown)`,
then set `motion_on = True`, `last_rise_ts = now` and call `on_rise(crop)`. -/
def risePhase (cfg : DetCfg) (s : DetState) (f : FrameInput) :
    DetState × List (Int × DetEvent) :=
  if s.motionOn = false ∧ f.big.isSome = true ∧ cfg.cooldown ≤ f.now - s.lastRise then
    ({ s with motionOn := true, lastRise := f.now },
     [(f.now, DetEvent.rise (cropOf cfg f))])
  else (s, [])

/-- The falling-edge branch (detector.py lines 87–90):
`if self.motion_on and (now - self.last_motion_seen_ts >= self.quiet)`,
then set `motion_on = False` and call `on_fall()`. -/
def fallPhase (cfg : DetCfg) (s : DetState) (f : FrameInput) :
    DetState × List (Int × DetEvent) :=
  if s.motionOn = true ∧ cfg.quiet ≤ f.now - s.lastSeen then
    ({ s with motionOn := false }, [(f.now, DetEvent.fall)])
  else (s, [])

/-- One iteration of `MotionDetector.loop`: update `last_motion_seen_ts`,
then the rising-edge branch, then the falling-edge branch (in source order).
Events are tagged with the iteration's `now`. -/
def stepDet (cfg : DetCfg) (s0 : DetState) (f : FrameInput) :
    DetState × List (Int × DetEvent) :=
  let s1 := updateSeen s0 f
  let p := risePhase cfg s1 f
  let q := fallPhase cfg p.1 f
  (q.1, p.2 ++ q.2)

/-- `MotionDetector.loop` over a finite list of frame inputs, returning the
final state and the chronological event list. -/
def runDet (cfg : DetCfg) : DetState → List FrameInput → DetState × List (Int × DetEvent)
  | s, [] => (s, [])
  | s, f :: rest =>
    let p := stepDet cfg s f
    let q := runDet cfg p.1 rest
    (q.1, p.2 ++ q.2)

/-- The timestamps at which `Rise` events occur in an event list. -/
def riseTimes (evs : List (Int × DetEvent)) : List Int :=
  evs.filterMap fun te =>
    match te.2 with
    | DetEvent.rise _ => some te.1
    | DetEvent.fall => none

/-- The time motion was last seen after processing a list of frames, starting
from `a`: updated to `f.now` on every frame whose `motion_now` is true,
regardless of the `motion_on` state. -/
def lastSeenSpec : List FrameInput → Int → Int
  | [], a => a
  | f :: rest, a => lastSeenSpec rest (if f.big.isSome then f.now else a)

example :
    riseTimes (runDet ⟨1, 2, 1, 8⟩ detInit
      [⟨100, 100, 5, some ⟨1, 1, 3, 3⟩⟩, ⟨100, 100, 8, none⟩,
       ⟨100, 100, 11, some ⟨2, 2, 4, 4⟩⟩]).2 = [5, 11] := by decide

example :
    (runDet ⟨1, 2, 1, 8⟩ detInit
      [⟨100, 100, 5, some ⟨1, 1, 3, 3⟩⟩, ⟨100, 100, 8, none⟩]).2 =
    [(5, DetEvent.rise (some ⟨1, 1, 4, 4⟩)), (8, DetEvent.fall)] := by decide

/-! ## Basic lemmas about the detector step -/

lemma updateSeen_motionOn (s : DetState) (f : FrameInput) :
    (updateSeen s f).motionOn = s.motionOn := by
  unfold updateSeen; split <;> rfl

lemma updateSeen_lastRise (s : DetState) (f : FrameInput) :
    (updateSeen s f).lastRise = s.lastRise := by
  unfold updateSeen; split <;> rfl

lemma updateSeen_lastSeen (s : DetState) (f : FrameInput) :
    (updateSeen s f).lastSeen = if f.big.isSome then f.now else s.lastSeen := by
  unfold updateSeen; split <;> simp_all

lemma risePhase_lastSeen (cfg : DetCfg) (s : DetState) (f : FrameInput) :
    (risePhase cfg s f).1.lastSeen = s.lastSeen := by
  unfold risePhase; split <;> rfl

lemma fallPhase_lastSeen (cfg : DetCfg) (s : DetState) (f : FrameInput) :
    (fallPhase cfg s f).1.lastSeen = s.lastSeen := by
  unfold fallPhase; split <;> rfl

lemma fallPhase_lastRise (cfg : DetCfg) (s : DetState) (f : FrameInput) :
    (fallPhase cfg s f).1.lastRise = s.lastRise := by
  unfold fallPhase; split <;> rfl

lemma fallPhase_riseTimes (cfg : DetCfg) (s : DetState) (f : FrameInput) :
    riseTimes (fallPhase cfg s f).2 = [] := by
  unfold fallPhase; split <;> rfl

lemma riseTimes_append (a b : List (Int × DetEvent)) :
    riseTimes (a ++ b) = riseTimes a ++ riseTimes b :=
  List.filterMap_append a b _

lemma riseTimes_nil : riseTimes [] = [] := rfl

lemma riseTimes_single_rise (t : Int) (c : Option ClampRect) :
    riseTimes [(t, DetEvent.rise c)] = [t] := rfl

lemma risePhase_cases (cfg : DetCfg) (s : DetState) (f : FrameInput) :
    risePhase cfg s f = (s, []) ∨
    (s.motionOn = false ∧ f.big.isSome = true ∧ cfg.cooldown ≤ f.now - s.lastRise ∧
      risePhase cfg s f =
        ({ s with motionOn := true, lastRise := f.now },
         [(f.now, DetEvent.rise (cropOf cfg f))])) := by
  unfold risePhase; split
  case isTrue h => exact Or.inr ⟨h.1, h.2.1, h.2.2, rfl⟩
  case isFalse h => exact Or.inl rfl

/-- Per step, either no rise fires (and `lastRise` is unchanged), or exactly
one rise at time `f.now` fires, which requires the cooldown to have elapsed
since the previous `lastRise`, and records `lastRise := f.now`. -/
lemma stepDet_riseTimes (cfg : DetCfg) (s0 : DetState) (f : FrameInput) :
    (riseTimes (stepDet cfg s0 f).2 = [] ∧ (stepDet cfg s0 f).1.lastRise = s0.lastRise) ∨
    (riseTimes (stepDet cfg s0 f).2 = [f.now] ∧ (stepDet cfg s0 f).1.lastRise = f.now ∧
      s0.lastRise + cfg.cooldown ≤ f.now) := by
  have hp1 : (stepDet cfg s0 f).1 =
      (fallPhase cfg (risePhase cfg (updateSeen s0 f) f).1 f).1 := rfl
  have hp2 : (stepDet cfg s0 f).2 =
      (risePhase cfg (updateSeen s0 f) f).2 ++
        (fallPhase cfg (risePhase cfg (updateSeen s0 f) f).1 f).2 := rfl
  rw [hp1, hp2]
  rcases risePhase_cases cfg (updateSeen s0 f) f with h | ⟨h1, h2, h3, h⟩
  · left
    rw [h]; dsimp only
    refine ⟨?_, ?_⟩
    · rw [List.nil_append, fallPhase_riseTimes]
    · rw [fallPhase_lastRise, updateSeen_lastRise]
  · right
    rw [h]; dsimp only
    rw [updateSeen_lastRise] at h3
    refine ⟨?_, ?_, by omega⟩
    · rw [riseTimes_append, fallPhase_riseTimes, List.append_nil, riseTimes_single_rise]
    · rw [fallPhase_lastRise]

/-- Cooldown invariant for whole runs: all rises from state `s` happen at
least `cooldown` after `s.lastRise`, rise times are pairwise separated by at
least `cooldown`, and `lastRise` is monotone and dominates every rise time. -/
lemma runDet_rise_inv (cfg : DetCfg) (hc : 0 ≤ cfg.cooldown) :
    ∀ (inputs : List FrameInput) (s : DetState),
      (∀ t ∈ riseTimes (runDet cfg s inputs).2, s.lastRise + cfg.cooldown ≤ t) ∧
      List.Pairwise (fun a b => a + cfg.cooldown ≤ b) (riseTimes (runDet cfg s inputs).2) ∧
      s.lastRise ≤ (runDet cfg s inputs).1.lastRise ∧
      (∀ t ∈ riseTimes (runDet cfg s inputs).2, t ≤ (runDet cfg s inputs).1.lastRise) := by
  intro inputs
  induction inputs with
  | nil => intro s; simp [runDet, riseTimes]
  | cons f rest ih =>
    intro s
    have h1 : (runDet cfg s (f :: rest)).1 = (runDet cfg (stepDet cfg s f).1 rest).1 := rfl
    have h2 : (runDet cfg s (f :: rest)).2 =
        (stepDet cfg s f).2 ++ (runDet cfg (stepDet cfg s f).1 rest).2 := rfl
    obtain ⟨ih1, ih2, ih3, ih4⟩ := ih (stepDet cfg s f).1
    rw [h1, h2]
    rcases stepDet_riseTimes cfg s f with ⟨he, hl⟩ | ⟨he, hl, hle⟩
    · rw [riseTimes_append, he, List.nil_append]
      exact ⟨fun t ht => hl ▸ ih1 t ht, ih2, hl ▸ ih3, ih4⟩
    · rw [riseTimes_append, he]
      have hfinal : f.now ≤ (runDet cfg (stepDet cfg s f).1 rest).1.lastRise := hl ▸ ih3
      refine ⟨?_, ?_, ?_, ?_⟩
      · intro t ht
        rcases List.mem_cons.mp ht with h | h
        · omega
        · have := ih1 t h; rw [hl] at this; omega
      · refine List.pairwise_cons.mpr ⟨fun t ht => ?_, ih2⟩
        have := ih1 t ht; rw [hl] at this; omega
      · omega
      · intro t ht
        rcases List.mem_cons.mp ht with h | h
        · omega
        · exact ih4 t h

/-- C1: for every sequence of per-frame inputs processed by
`MotionDetector.loop`, no two Rise events are emitted less than `cooldown_sec`
apart: any two rise timestamps in order satisfy `a + cooldown ≤ b`.  The
QUIET→ACTIVE transition fires only when `motion_now` holds and
`now - last_rise_ts ≥ cooldown`, and `last_rise_ts` is set to `now` on each
rise. -/
theorem c1_rise_cooldown_separation (cfg : DetCfg) (hc : 0 ≤ cfg.cooldown)
    (inputs : List FrameInput) :
    List.Pairwise (fun a b => a + cfg.cooldown ≤ b)
      (riseTimes (runDet cfg detInit inputs).2) :=
  (runDet_rise_inv cfg hc inputs detInit).2.1

/-- Witness for C1 on a concrete three-frame run producing two rises. -/
theorem c1_witness :
    List.Pairwise (fun a b => a + (⟨2, 1, 1, 8⟩ : DetCfg).cooldown ≤ b)
      (riseTimes (runDet ⟨2, 1, 1, 8⟩ detInit
        [⟨100, 100, 10, some ⟨1, 1, 3, 3⟩⟩, ⟨100, 100, 12, none⟩,
         ⟨100, 100, 13, some ⟨1, 1, 3, 3⟩⟩]).2) :=
  c1_rise_cooldown_separation ⟨2, 1, 1, 8⟩ (by decide) _

lemma stepDet_lastSeen (cfg : DetCfg) (s0 : DetState) (f : FrameInput) :
    (stepDet cfg s0 f).1.lastSeen = if f.big.isSome then f.now else s0.lastSeen := by
  have hp1 : (stepDet cfg s0 f).1 =
      (fallPhase cfg (risePhase cfg (updateSeen s0 f) f).1 f).1 := rfl
  rw [hp1, fallPhase_lastSeen, risePhase_lastSeen, updateSeen_lastSeen]

/-- `last_motion_seen_ts` after a run equals the timestamp of the latest frame
whose `motion_now` was true (or the starting value): it is updated on every
such frame, independently of the `motion_on` state. -/
lemma runDet_lastSeen (cfg : DetCfg) :
    ∀ (inputs : List FrameInput) (s : DetState),
      (runDet cfg s inputs).1.lastSeen = lastSeenSpec inputs s.lastSeen := by
  intro inputs
  induction inputs with
  | nil => intro s; rfl
  | cons f rest ih =>
    intro s
    have h1 : (runDet cfg s (f :: rest)).1 = (runDet cfg (stepDet cfg s f).1 rest).1 := rfl
    rw [h1, ih (stepDet cfg s f).1]
    show lastSeenSpec rest (stepDet cfg s f).1.lastSeen =
      lastSeenSpec rest (if f.big.isSome then f.now else s.lastSeen)
    rw [stepDet_lastSeen]

lemma risePhase_noop (cfg : DetCfg) (s : DetState) (f : FrameInput)
    (h : ¬(s.motionOn = false ∧ f.big.isSome = true ∧ cfg.cooldown ≤ f.now - s.lastRise)) :
    risePhase cfg s f = (s, []) := by
  unfold risePhase; rw [if_neg h]

lemma risePhase_fires (cfg : DetCfg) (s : DetState) (f : FrameInput)
    (h : s.motionOn = false ∧ f.big.isSome = true ∧ cfg.cooldown ≤ f.now - s.lastRise) :
    risePhase cfg s f =
      ({ s with motionOn := true, lastRise := f.now },
       [(f.now, DetEvent.rise (cropOf cfg f))]) := by
  unfold risePhase; rw [if_pos h]

lemma fallPhase_noop (cfg : DetCfg) (s : DetState) (f : FrameInput)
    (h : ¬(s.motionOn = true ∧ cfg.quiet ≤ f.now - s.lastSeen)) :
    fallPhase cfg s f = (s, []) := by
  unfold fallPhase; rw [if_neg h]

lemma fallPhase_fires (cfg : DetCfg) (s : DetState) (f : FrameInput)
    (h : s.motionOn = true ∧ cfg.quiet ≤ f.now - s.lastSeen) :
    fallPhase cfg s f = ({ s with motionOn := false }, [(f.now, DetEvent.fall)]) := by
  unfold fallPhase; rw [if_pos h]

/-- Step-level characterization of the falling edge: with a positive quiet
interval, `on_fall` fires at a frame exactly when the detector was ACTIVE,
the frame itself shows no motion, and at least `quiet_sec` has passed since
`last_motion_seen_ts`. -/
lemma stepDet_fall_iff (cfg : DetCfg) (hq : 0 < cfg.quiet) (s : DetState) (f : FrameInput) :
    ((f.now, DetEvent.fall) ∈ (stepDet cfg s f).2) ↔
    (s.motionOn = true ∧ f.big.isSome = false ∧ cfg.quiet ≤ f.now - s.lastSeen) := by
  have hp2 : (stepDet cfg s f).2 =
      (risePhase cfg (updateSeen s f) f).2 ++
        (fallPhase cfg (risePhase cfg (updateSeen s f) f).1 f).2 := rfl
  rw [hp2]
  cases hm : f.big.isSome with
  | true =>
    have hseen : updateSeen s f = { s with lastSeen := f.now } := by
      unfold updateSeen; rw [if_pos hm]
    rw [hseen]
    cases hmo : s.motionOn with
    | true =>
      rw [risePhase_noop cfg _ f (by simp [hmo])]
      rw [fallPhase_noop cfg _ f (by intro hcon; have h2 := hcon.2; dsimp at h2; omega)]
      simp [hm]
    | false =>
      by_cases hg : cfg.cooldown ≤ f.now - s.lastRise
      · rw [risePhase_fires cfg { motionOn := false, lastSeen := f.now, lastRise := s.lastRise }
            f ⟨rfl, hm, hg⟩]
        rw [fallPhase_noop cfg _ f (by intro hcon; have h2 := hcon.2; dsimp at h2; omega)]
        simp [hmo]
      · rw [risePhase_noop cfg _ f (by intro hcon; exact hg hcon.2.2)]
        rw [fallPhase_noop cfg _ f (by intro hcon; have h1 := hcon.1; dsimp at h1; simp [hmo] at h1)]
        simp [hmo]
  | false =>
    have hseen : updateSeen s f = s := by
      unfold updateSeen; rw [if_neg (by simp [hm])]
    rw [hseen]
    rw [risePhase_noop cfg s f (by intro hcon; simp [hm] at hcon)]
    by_cases hfall : s.motionOn = true ∧ cfg.quiet ≤ f.now - s.lastSeen
    · rw [fallPhase_fires cfg s f hfall]
      simp [hm, hfall.1, hfall.2]
    · rw [fallPhase_noop cfg s f hfall]
      simp only [List.nil_append, List.not_mem_nil, false_iff]
      intro hcon
      exact hfall ⟨hcon.1, hcon.2.2⟩

/-- C2: after a rise, `on_fall` is emitted at a frame if and only if the
detector is ACTIVE, the frame shows no motion, and at least `quiet_sec`
elapsed since the last frame with `motion_now == true` — the guard compares
`now` with `last_motion_seen_ts` (updated on every motion frame regardless of
state, here `lastSeenSpec`), not with `last_rise_ts`, and fires no sooner. -/
theorem c2_fall_characterization (cfg : DetCfg) (hq : 0 < cfg.quiet)
    (pfx : List FrameInput) (f : FrameInput) :
    ((f.now, DetEvent.fall) ∈ (stepDet cfg (runDet cfg detInit pfx).1 f).2) ↔
    ((runDet cfg detInit pfx).1.motionOn = true ∧ f.big.isSome = false ∧
      cfg.quiet ≤ f.now - lastSeenSpec pfx 0) := by
  rw [stepDet_fall_iff cfg hq, runDet_lastSeen]
  rfl

/-- Witness for C2: a concrete run where the quiet interval elapses and the
fall is emitted. -/
theorem c2_witness :
    ((8 : Int), DetEvent.fall) ∈
      (stepDet ⟨1, 2, 1, 8⟩ (runDet ⟨1, 2, 1, 8⟩ detInit
        [⟨100, 100, 5, some ⟨1, 1, 3, 3⟩⟩]).1 ⟨100, 100, 8, none⟩).2 :=
  (c2_fall_characterization ⟨1, 2, 1, 8⟩ (by decide) _ _).mpr (by decide)

lemma fallPhase_no_rise (cfg : DetCfg) (s : DetState) (f : FrameInput)
    (t : Int) (c : Option ClampRect) :
    (t, DetEvent.rise c) ∉ (fallPhase cfg s f).2 := by
  unfold fallPhase; split <;> simp

/-- Any rise event emitted by a step carries the crop computed from the
frame's contour, which exists because the rise guard requires `motion_now`. -/
lemma stepDet_rise_crop_isSome (cfg : DetCfg) (s : DetState) (f : FrameInput)
    (t : Int) (c : Option ClampRect)
    (h : (t, DetEvent.rise c) ∈ (stepDet cfg s f).2) : c.isSome = true := by
  have hp2 : (stepDet cfg s f).2 =
      (risePhase cfg (updateSeen s f) f).2 ++
        (fallPhase cfg (risePhase cfg (updateSeen s f) f).1 f).2 := rfl
  rw [hp2] at h
  rcases List.mem_append.mp h with h | h
  · rcases risePhase_cases cfg (updateSeen s f) f with hc | ⟨h1, h2, h3, hc⟩
    · rw [hc] at h; simp at h
    · rw [hc] at h
      simp only [List.mem_singleton, Prod.mk.injEq, DetEvent.rise.injEq] at h
      rw [h.2, cropOf, Option.isSome_map']
      exact h2
  · exact absurd h (fallPhase_no_rise cfg _ f t c)

/-- C10: whenever `MotionDetector.loop` invokes `on_rise`, the crop argument
is not `None` (the rise guard requires `motion_now`, which holds exactly when
a qualifying contour exists); the pad `int(max(w, h) * pad_ratio)` is
non-negative for a non-negative ratio; and for any bounding rectangle inside
the frame and non-negative pad, `_crop_with_pad` clamps to
`0 ≤ x0 ≤ x1 ≤ W` and `0 ≤ y0 ≤ y1 ≤ H`, a well-formed slice of the frame. -/
theorem c10_crop_safety :
    (∀ (cfg : DetCfg) (s : DetState) (f : FrameInput) (t : Int) (c : Option ClampRect),
      (t, DetEvent.rise c) ∈ (stepDet cfg s f).2 → c.isSome = true) ∧
    (∀ (w h : Int) (num den : Nat), 0 ≤ w → 0 ≤ h → 0 ≤ padOf w h num den) ∧
    (∀ (W H pad : Int) (r : Rect), 0 ≤ r.x → 0 ≤ r.y → 0 ≤ r.w → 0 ≤ r.h →
      r.x + r.w ≤ W → r.y + r.h ≤ H → 0 ≤ pad →
      0 ≤ (cropWithPad W H r pad).x0 ∧
      (cropWithPad W H r pad).x0 ≤ (cropWithPad W H r pad).x1 ∧
      (cropWithPad W H r pad).x1 ≤ W ∧
      0 ≤ (cropWithPad W H r pad).y0 ∧
      (cropWithPad W H r pad).y0 ≤ (cropWithPad W H r pad).y1 ∧
      (cropWithPad W H r pad).y1 ≤ H) := by
  refine ⟨stepDet_rise_crop_isSome, ?_, ?_⟩
  · intro w h num den hw hh
    apply Int.ediv_nonneg
    · have : (0 : Int) ≤ max w h := le_max_of_le_left hw
      positivity
    · exact Int.ofNat_nonneg den
  · intro W H pad r hx hy hw hh hxw hyh hpad
    unfold cropWithPad
    dsimp only
    omega

/-- Witness for C10 at a concrete frame, rectangle and pad. -/
theorem c10_witness :
    (some (⟨1, 1, 4, 4⟩ : ClampRect)).isSome = true ∧
    0 ≤ padOf 3 3 1 8 ∧
    (0 ≤ (cropWithPad 100 100 ⟨1, 1, 3, 3⟩ 2).x0 ∧
      (cropWithPad 100 100 ⟨1, 1, 3, 3⟩ 2).x0 ≤ (cropWithPad 100 100 ⟨1, 1, 3, 3⟩ 2).x1 ∧
      (cropWithPad 100 100 ⟨1, 1, 3, 3⟩ 2).x1 ≤ 100 ∧
      0 ≤ (cropWithPad 100 100 ⟨1, 1, 3, 3⟩ 2).y0 ∧
      (cropWithPad 100 100 ⟨1, 1, 3, 3⟩ 2).y0 ≤ (cropWithPad 100 100 ⟨1, 1, 3, 3⟩ 2).y1 ∧
      (cropWithPad 100 100 ⟨1, 1, 3, 3⟩ 2).y1 ≤ 100) :=
  ⟨c10_crop_safety.1 ⟨1, 2, 1, 8⟩ detInit ⟨100, 100, 5, some ⟨1, 1, 3, 3⟩⟩ 5
      (some ⟨1, 1, 4, 4⟩) (by decide),
   c10_crop_safety.2.1 3 3 1 8 (by decide) (by decide),
   c10_crop_safety.2.2 100 100 2 ⟨1, 1, 3, 3⟩ (by decide) (by decide) (by decide)
      (by decide) (by decide) (by decide) (by decide)⟩

/-! ## CoAP observable resources (coap/server.py)

Each `resource.ObservableResource` holds a byte value; aiocoap's
`updated_state()` advances the observe sequence number and pushes one
notification to every current observer.  We model it by incrementing `seq`
and counting the notifications pushed per subscriber in `notes`. -/

/-- Python `str.encode()` for the strings used here, as a byte list. -/
def strEncode (s : String) : List Nat := s.toList.map Char.toNat

/-- The ASCII whitespace bytes stripped by Python's `bytes.strip()`. -/
def isSpaceByte (b : Nat) : Bool :=
  b = 32 || b = 9 || b = 10 || b = 13 || b = 11 || b = 12

/-- Python `bytes.strip()`: remove ASCII whitespace from both ends. -/
def stripBytes (l : List Nat) : List Nat :=
  ((l.dropWhile isSpaceByte).reverse.dropWhile isSpaceByte).reverse

/-- `MotionResource` (server.py lines 12–23): value `self.motion`,
initially `b"false"`. -/
structure MotionResource where
  motion : List Nat
  seq : Nat
  notes : Nat
deriving DecidableEq, Repr

/-- `MotionResource.set` (server.py lines 20–23): update and call
`updated_state()` only when the value changes. -/
def MotionResource.set (r : MotionResource) (val : List Nat) : MotionResource :=
  if r.motion ≠ val then
    { motion := val, seq := r.seq + 1, notes := r.notes + 1 }
  else r

/-- `LastDetectionResource` (server.py lines 25–37): value `self.ts`,
initially `b""`. -/
structure LastDetectionResource where
  ts : List Nat
  seq : Nat
  notes : Nat
deriving DecidableEq, Repr

/-- `LastDetectionResource.set_now` (server.py lines 33–37): encode the
timestamp string and update/notify only when it changes. -/
def LastDetectionResource.set_now (r : LastDetectionResource) (s : String) :
    LastDetectionResource :=
  let new := strEncode s
  if new ≠ r.ts then
    { ts := new, seq := r.seq + 1, notes := r.notes + 1 }
  else r

/-- `ImageResource` (server.py lines 39–49): value `self.jpeg`; not
observable, `set_jpeg` overwrites unconditionally. -/
structure ImageResource where
  jpeg : List Nat
deriving DecidableEq, Repr

/-- `ImageResource.set_jpeg` (server.py lines 48–49). -/
def ImageResource.set_jpeg (_r : ImageResource) (buf : List Nat) : ImageResource :=
  { jpeg := buf }

/-- CoAP response codes used by the server: 2.05 Content is the default for
a `render_get` result, 2.04 Changed is returned by `ClassResource.render_put`;
4.00 Bad Request is the error acknowledgement a rejecting write would use. -/
inductive RCode where
  | content
  | changed
  | badRequest
deriving DecidableEq, Repr

/-- A CoAP response message: its code and payload. -/
structure Response where
  code : RCode
  payload : List Nat
deriving DecidableEq, Repr

/-- `ClassResource` (server.py lines 51–64): value `self.label`,
initially `b""`. -/
structure ClassResource where
  label : List Nat
  seq : Nat
  notes : Nat
deriving DecidableEq, Repr

/-- `ClassResource.render_get` (server.py lines 56–57): a plain read
response carrying the label (default 2.05 Content). -/
def ClassResource.render_get (r : ClassResource) : Response :=
  { code := RCode.content, payload := r.label }

/-- `ClassResource.render_put` (server.py lines 59–64):
`new = (request.payload or b"").strip()`; store and `updated_state()` only
when `new != self.label`; always return `Message(code=Code.CHANGED, payload=b"ok")`.
No UTF-8 validation and no size limit exist. -/
def ClassResource.render_put (r : ClassResource) (payload : List Nat) :
    ClassResource × Response :=
  let new := stripBytes payload
  if new ≠ r.label then
    ({ label := new, seq := r.seq + 1, notes := r.notes + 1 },
     { code := RCode.changed, payload := strEncode "ok" })
  else
    (r, { code := RCode.changed, payload := strEncode "ok" })

example :
    (ClassResource.render_put ⟨[], 0, 0⟩ (strEncode " person ")).1.label =
      strEncode "person" := by decide

/-- C3: for each observable resource (`motion`, `lastDetection`, `class`),
writing a value equal to the stored one is a no-op (value, sequence and
notification count unchanged), and writing the same value twice bumps the
sequence at most once and produces at most one notification per subscriber. -/
theorem c3_idempotent_set :
    (∀ (r : MotionResource) (v : List Nat),
      (r.motion = v → r.set v = r) ∧
      (r.set v).set v = r.set v ∧
      (r.set v).seq ≤ r.seq + 1 ∧ (r.set v).notes ≤ r.notes + 1) ∧
    (∀ (r : LastDetectionResource) (s : String),
      (r.ts = strEncode s → r.set_now s = r) ∧
      (r.set_now s).set_now s = r.set_now s ∧
      (r.set_now s).seq ≤ r.seq + 1 ∧ (r.set_now s).notes ≤ r.notes + 1) ∧
    (∀ (r : ClassResource) (p : List Nat),
      (r.label = stripBytes p → (r.render_put p).1 = r) ∧
      ((r.render_put p).1.render_put p).1 = (r.render_put p).1 ∧
      (r.render_put p).1.seq ≤ r.seq + 1 ∧ (r.render_put p).1.notes ≤ r.notes + 1) := by
  have mset_eq : ∀ (r : MotionResource) (v : List Nat), r.motion = v → r.set v = r := by
    intro r v h; unfold MotionResource.set; rw [if_neg (by simp [h])]
  have mset_ne : ∀ (r : MotionResource) (v : List Nat), r.motion ≠ v →
      r.set v = ⟨v, r.seq + 1, r.notes + 1⟩ := by
    intro r v h; unfold MotionResource.set; rw [if_pos h]
  have lset_eq : ∀ (r : LastDetectionResource) (s : String), r.ts = strEncode s →
      r.set_now s = r := by
    intro r s h; unfold LastDetectionResource.set_now; rw [if_neg (by simp [h])]
  have lset_ne : ∀ (r : LastDetectionResource) (s : String), r.ts ≠ strEncode s →
      r.set_now s = ⟨strEncode s, r.seq + 1, r.notes + 1⟩ := by
    intro r s h; unfold LastDetectionResource.set_now
    rw [if_pos (fun hc => h hc.symm)]
  have cput_eq : ∀ (r : ClassResource) (p : List Nat), r.label = stripBytes p →
      (r.render_put p).1 = r := by
    intro r p h; unfold ClassResource.render_put; rw [if_neg (by simp [h])]
  have cput_ne : ∀ (r : ClassResource) (p : List Nat), r.label ≠ stripBytes p →
      (r.render_put p).1 = ⟨stripBytes p, r.seq + 1, r.notes + 1⟩ := by
    intro r p h; unfold ClassResource.render_put
    rw [if_pos (fun hc => h hc.symm)]
  refine ⟨?_, ?_, ?_⟩
  · intro r v
    refine ⟨mset_eq r v, ?_, ?_, ?_⟩ <;> by_cases h : r.motion = v
    · rw [mset_eq r v h, mset_eq r v h]
    · rw [mset_ne r v h]; exact mset_eq _ v rfl
    · rw [mset_eq r v h]; omega
    · rw [mset_ne r v h]
    · rw [mset_eq r v h]; omega
    · rw [mset_ne r v h]
  · intro r s
    refine ⟨lset_eq r s, ?_, ?_, ?_⟩ <;> by_cases h : r.ts = strEncode s
    · rw [lset_eq r s h, lset_eq r s h]
    · rw [lset_ne r s h]; exact lset_eq _ s rfl
    · rw [lset_eq r s h]; omega
    · rw [lset_ne r s h]
    · rw [lset_eq r s h]; omega
    · rw [lset_ne r s h]
  · intro r p
    refine ⟨cput_eq r p, ?_, ?_, ?_⟩ <;> by_cases h : r.label = stripBytes p
    · rw [cput_eq r p h, cput_eq r p h]
    · rw [cput_ne r p h]; exact cput_eq _ p rfl
    · rw [cput_eq r p h]; omega
    · rw [cput_ne r p h]
    · rw [cput_eq r p h]; omega
    · rw [cput_ne r p h]

/-- Witness for C3: writing the stored value back is the identity on a
concrete `motion` resource. -/
theorem c3_witness :
    (⟨strEncode "true", 4, 4⟩ : MotionResource).set (strEncode "true") =
      ⟨strEncode "true", 4, 4⟩ :=
  (c3_idempotent_set.1 ⟨strEncode "true", 4, 4⟩ (strEncode "true")).1 (by decide)

/-! ## The detector → resources bridge (coap/server.py lines 66–84) -/

/-- Identifies the resources touched by edge events. -/
inductive ResId where
  | image
  | lastDetection
  | motion
deriving DecidableEq, Repr

/-- The server-side resources wired by `start_server`. -/
structure ServerState where
  img : ImageResource
  last : LastDetectionResource
  mot : MotionResource
deriving DecidableEq, Repr

/-- The `on_rise` closure produced by `on_rise_factory` (server.py lines
68–78).  `enc` models `cv2.imencode` (`none` = failure, `ok == False`); `ts`
models `datetime.now().strftime(...)`; `crop` is the argument handed over by
the detector.  The returned list records, in call order, each resource setter
invoked together with the server state right after that call. -/
def onRise (enc : List Nat → Option (List Nat)) (ts : String)
    (crop : Option (List Nat)) (st : ServerState) :
    ServerState × List (ResId × ServerState) :=
  let p1 : ServerState × List (ResId × ServerState) :=
    match crop with
    | some c =>
      if c.length > 0 then
        match enc c with
        | some buf =>
          let s1 := { st with img := st.img.set_jpeg buf }
          (s1, [(ResId.image, s1)])
        | none => (st, [])
      else (st, [])
    | none => (st, [])
  let s2 := { p1.1 with last := p1.1.last.set_now ts }
  let s3 := { s2 with mot := s2.mot.set (strEncode "true") }
  (s3, p1.2 ++ [(ResId.lastDetection, s2), (ResId.motion, s3)])

/-- The `on_fall` closure produced by `on_fall_factory` (server.py lines
80–84): `motion_res.set(b"false")`. -/
def onFall (st : ServerState) : ServerState × List (ResId × ServerState) :=
  let s1 := { st with mot := st.mot.set (strEncode "false") }
  (s1, [(ResId.motion, s1)])

/-- C4: on a rise whose crop is present, non-empty and encodes successfully,
the resources are updated in the fixed order `image`, `lastDetection`,
`motion`; and if the timestamp is new, then at every state reached during the
handler in which `lastDetection` holds this rise's timestamp, `image` already
holds this rise's snapshot bytes, so an observer reacting to the
`lastDetection` change can fetch a consistent image. -/
theorem c4_update_order (enc : List Nat → Option (List Nat)) (ts : String)
    (crop : Option (List Nat)) (st : ServerState) (c buf : List Nat)
    (hcrop : crop = some c) (hlen : 0 < c.length) (henc : enc c = some buf)
    (hfresh : st.last.ts ≠ strEncode ts) :
    ((onRise enc ts crop st).2.map Prod.fst =
      [ResId.image, ResId.lastDetection, ResId.motion]) ∧
    (∀ p ∈ (onRise enc ts crop st).2,
      p.2.last.ts = strEncode ts → p.2.img.jpeg = buf) := by
  subst hcrop
  have hfirst :
      (match some c with
        | some c =>
          if c.length > 0 then
            match enc c with
            | some buf =>
              let s1 := { st with img := st.img.set_jpeg buf }
              (s1, [(ResId.image, s1)])
            | none => (st, [])
          else (st, [])
        | none => (st, []) : ServerState × List (ResId × ServerState)) =
      ({ st with img := st.img.set_jpeg buf },
       [(ResId.image, { st with img := st.img.set_jpeg buf })]) := by
    simp only [if_pos hlen, henc]
  have hon : onRise enc ts (some c) st =
      (let p1 := ({ st with img := st.img.set_jpeg buf },
        [(ResId.image, { st with img := st.img.set_jpeg buf })])
       let s2 := { p1.1 with last := p1.1.last.set_now ts }
       let s3 := { s2 with mot := s2.mot.set (strEncode "true") }
       (s3, p1.2 ++ [(ResId.lastDetection, s2), (ResId.motion, s3)])) := by
    unfold onRise
    rw [hfirst]
  rw [hon]
  dsimp only
  have hlast : (LastDetectionResource.set_now st.last ts).ts = strEncode ts := by
    unfold LastDetectionResource.set_now
    by_cases h : strEncode ts = st.last.ts
    · exact absurd h.symm hfresh
    · rw [if_pos h]
  constructor
  · rfl
  · intro p hp hts
    simp only [List.singleton_append, List.mem_cons, List.not_mem_nil, or_false] at hp
    rcases hp with hp | hp | hp
    · rw [hp] at hts
      exact absurd hts hfresh
    · rw [hp]; rfl
    · rw [hp]; rfl

/-- Witness for C4 with a concrete crop, encoder, timestamp and state. -/
theorem c4_witness :
    ((onRise (fun b => some (0 :: b)) "t" (some [7, 7])
        ⟨⟨[]⟩, ⟨[], 0, 0⟩, ⟨strEncode "false", 0, 0⟩⟩).2.map Prod.fst =
      [ResId.image, ResId.lastDetection, ResId.motion]) ∧
    (∀ p ∈ (onRise (fun b => some (0 :: b)) "t" (some [7, 7])
        ⟨⟨[]⟩, ⟨[], 0, 0⟩, ⟨strEncode "false", 0, 0⟩⟩).2,
      p.2.last.ts = strEncode "t" → p.2.img.jpeg = 0 :: [7, 7]) :=
  c4_update_order (fun b => some (0 :: b)) "t" (some [7, 7])
    ⟨⟨[]⟩, ⟨[], 0, 0⟩, ⟨strEncode "false", 0, 0⟩⟩ [7, 7] (0 :: [7, 7])
    rfl (by decide) rfl (by decide)

/-! ## Malformed and regular writes to `class` (C6, C7) -/

/-- A UTF-8 continuation byte. -/
def contByte (b : Nat) : Bool := 128 ≤ b && b ≤ 191

/-- Standard UTF-8 well-formedness of a byte sequence (RFC 3629 table). -/
def utf8Valid : List Nat → Bool
  | [] => true
  | b :: rest =>
    if b ≤ 127 then utf8Valid rest
    else if 194 ≤ b && b ≤ 223 then
      match rest with
      | c1 :: r2 => contByte c1 && utf8Valid r2
      | [] => false
    else if b = 224 then
      match rest with
      | c1 :: c2 :: r2 => (160 ≤ c1 && c1 ≤ 191) && contByte c2 && utf8Valid r2
      | _ => false
    else if (225 ≤ b && b ≤ 236) || b = 238 || b = 239 then
      match rest with
      | c1 :: c2 :: r2 => contByte c1 && contByte c2 && utf8Valid r2
      | _ => false
    else if b = 237 then
      match rest with
      | c1 :: c2 :: r2 => (128 ≤ c1 && c1 ≤ 159) && contByte c2 && utf8Valid r2
      | _ => false
    else if b = 240 then
      match rest with
      | c1 :: c2 :: c3 :: r2 =>
        (144 ≤ c1 && c1 ≤ 191) && contByte c2 && contByte c3 && utf8Valid r2
      | _ => false
    else if 241 ≤ b && b ≤ 243 then
      match rest with
      | c1 :: c2 :: c3 :: r2 => contByte c1 && contByte c2 && contByte c3 && utf8Valid r2
      | _ => false
    else if b = 244 then
      match rest with
      | c1 :: c2 :: c3 :: r2 =>
        (128 ≤ c1 && c1 ≤ 143) && contByte c2 && contByte c3 && utf8Valid r2
      | _ => false
    else false

/-- C6 counterexample: the byte `0xFF` is not valid UTF-8, yet
`ClassResource.render_put` accepts it — the stored value changes to `[255]`,
the sequence is bumped, a notification goes out, and the acknowledgement is
the success code 2.04 Changed, not an error. -/
theorem c6_counterexample :
    utf8Valid [255] = false ∧
    (ClassResource.render_put ⟨[], 0, 0⟩ [255]).1 = ⟨[255], 1, 1⟩ ∧
    (ClassResource.render_put ⟨[], 0, 0⟩ [255]).2 =
      ⟨RCode.changed, strEncode "ok"⟩ ∧
    (ClassResource.render_put ⟨[], 0, 0⟩ [255]).2.code ≠ RCode.badRequest := by
  decide

/-- C6 (amended): `ClassResource.render_put` performs no validation at all —
every payload, UTF-8 or not and of any size, is acknowledged with
2.04 Changed `"ok"`; the trimmed payload is stored (bumping sequence and
notifying) when it differs from the stored label, and the write is a no-op
otherwise. -/
theorem c6_accepts_any_payload (r : ClassResource) (p : List Nat) :
    (r.render_put p).2 = ⟨RCode.changed, strEncode "ok"⟩ ∧
    (stripBytes p ≠ r.label →
      (r.render_put p).1 = ⟨stripBytes p, r.seq + 1, r.notes + 1⟩) ∧
    (stripBytes p = r.label → (r.render_put p).1 = r) := by
  unfold ClassResource.render_put
  by_cases h : stripBytes p = r.label
  · rw [if_neg (by simp [h])]
    exact ⟨rfl, fun hc => absurd h hc, fun _ => rfl⟩
  · rw [if_pos h]
    exact ⟨rfl, fun _ => rfl, fun hc => absurd hc h⟩

/-- Witness for the amended C6 at the non-UTF-8 payload `[255]`. -/
theorem c6_witness :
    ((⟨[], 0, 0⟩ : ClassResource).render_put [255]).2 =
      ⟨RCode.changed, strEncode "ok"⟩ ∧
    ((⟨[], 0, 0⟩ : ClassResource).render_put [255]).1 = ⟨[255], 1, 1⟩ :=
  ⟨(c6_accepts_any_payload ⟨[], 0, 0⟩ [255]).1,
   (c6_accepts_any_payload ⟨[], 0, 0⟩ [255]).2.1 (by decide)⟩

/-- C7: a PUT to `class` trims the payload before comparison and storage
(`" person "` stores `"person"`); a successful write is acknowledged with
2.04 Changed, distinct from the 2.05 Content of a plain read; and a write of
an unchanged value still acknowledges success but changes nothing and
produces no notification. -/
theorem c7_class_write_semantics (r : ClassResource) (p : List Nat) :
    (stripBytes p ≠ r.label →
      (r.render_put p).1.label = stripBytes p ∧
      (r.render_put p).1.notes = r.notes + 1) ∧
    (r.render_put p).2.code = RCode.changed ∧
    (r.render_put p).2.code ≠ r.render_get.code ∧
    (stripBytes p = r.label →
      (r.render_put p).1 = r ∧ (r.render_put p).2.code = RCode.changed) ∧
    stripBytes (strEncode " person ") = strEncode "person" := by
  have hget : r.render_get.code = RCode.content := rfl
  unfold ClassResource.render_put
  by_cases h : stripBytes p = r.label
  · rw [if_neg (by simp [h])]
    exact ⟨fun hc => absurd h hc, rfl,
      (by decide : RCode.changed ≠ RCode.content), fun _ => ⟨rfl, rfl⟩, by decide⟩
  · rw [if_pos h]
    exact ⟨fun _ => ⟨rfl, rfl⟩, rfl,
      (by decide : RCode.changed ≠ RCode.content), fun hc => absurd hc h, by decide⟩

/-- Witness for C7: writing `" person "` over label `"old"` stores the
trimmed `"person"` and notifies once. -/
theorem c7_witness :
    ((⟨strEncode "old", 0, 0⟩ : ClassResource).render_put
        (strEncode " person ")).1.label = stripBytes (strEncode " person ") ∧
    ((⟨strEncode "old", 0, 0⟩ : ClassResource).render_put
        (strEncode " person ")).1.notes = 0 + 1 :=
  (c7_class_write_semantics ⟨strEncode "old", 0, 0⟩ (strEncode " person ")).1 (by decide)

/-! ## The detection-thread / asyncio-reactor boundary (C5)

`start_server` (server.py lines 101–111) launches the detector loop on a
`threading.Thread` whose target receives the raw `on_rise` / `on_fall`
closures from `on_rise_factory` / `on_fall_factory`.  Those closures mutate
the resource objects directly (`self.motion = val`, `self.ts = new`,
`self.jpeg = buf`) and call aiocoap's `updated_state()` from that thread;
there is no queue, no lock, and no `call_soon_threadsafe` anywhere in the
file.  The synchronization mechanism of each crossing is recorded as data. -/

/-- How an event crosses from the detector thread into the reactor. -/
inductive SyncMechanism where
  | unprotectedSharedWrite
  | threadSafeQueue
  | lockGuarded
deriving DecidableEq, Repr

/-- The cross-context wiring established by `start_server`. -/
structure CrossContextBridge where
  detectorOnSeparateThread : Bool
  riseWrites : SyncMechanism
  fallWrites : SyncMechanism
deriving DecidableEq, Repr

/-- The bridge as wired by `start_server` (server.py lines 101–111):
`threading.Thread(target=motion_detector_loop, args=(on_rise_factory(...),
on_fall_factory(...)), daemon=True)` — the callbacks write the shared
resource fields directly from `MotionDetectorThread`. -/
def startServerBridge : CrossContextBridge :=
  { detectorOnSeparateThread := true
    riseWrites := SyncMechanism.unprotectedSharedWrite
    fallWrites := SyncMechanism.unprotectedSharedWrite }

/-- C5: contrary to the claim, the `Set`/`Rise`/`Fall` events crossing from
the detector thread into the asyncio reactor go through no thread-safe queue
and no lock — `start_server` hands the raw closures to a separate thread and
they perform unprotected shared mutable writes. -/
theorem c5_unprotected_crossing :
    startServerBridge.detectorOnSeparateThread = true ∧
    startServerBridge.riseWrites ≠ SyncMechanism.threadSafeQueue ∧
    startServerBridge.riseWrites ≠ SyncMechanism.lockGuarded ∧
    startServerBridge.fallWrites ≠ SyncMechanism.threadSafeQueue ∧
    startServerBridge.fallWrites ≠ SyncMechanism.lockGuarded := by
  decide

/-! ## The observing classification client (coap-motion-classifier/classifier.py) -/

/-- One observe notification delivered to the client: the observe sequence
number and the `lastdetection` payload it carries. -/
structure Notif where
  seq : Nat
  payload : List Nat
deriving DecidableEq, Repr

/-- The network actions the client performs. -/
inductive ClientAct where
  | baselineRead
  | fetchImage
  | putClass (label : String)
deriving DecidableEq, Repr

/-- `infer_jpeg` (classifier.py lines 11–13): the stub classifier, always
returns `"unknown"`. -/
def infer_jpeg (_jpeg : List Nat) : String := "unknown"

/-- `handle_notification` (classifier.py lines 15–23): fetch `image` via a
point read, classify the fetched bytes, PUT the label to `class`.  `img`
models the payload of the image GET; the notification `_n` itself is never
inspected (the source ignores `_r`). -/
def handle_notification (img : List Nat) (_n : Notif) : List ClientAct :=
  [ClientAct.fetchImage, ClientAct.putClass (infer_jpeg img)]

/-- The callback registered in `main` (classifier.py lines 32–35) fires
`handle_notification` for every delivered notification, in order. -/
def clientActsFor (img : List Nat) : List Notif → List ClientAct
  | [] => []
  | n :: rest => handle_notification img n ++ clientActsFor img rest

/-- `main` (classifier.py lines 25–38): one observe request whose awaited
first response is the immediate baseline read of `lastdetection`, then the
per-notification callback. -/
def clientTrace (img : List Nat) (notifs : List Notif) : List ClientAct :=
  ClientAct.baselineRead :: clientActsFor img notifs

/-- Modelled from the spec's words, for comparison with `clientActsFor`: act
only on a notification carrying a strictly greater sequence than the last
one processed, starting from the baseline sequence. -/
def specClientActsFor (img : List Nat) : Nat → List Notif → List ClientAct
  | _, [] => []
  | lastSeq, n :: rest =>
    if lastSeq < n.seq then
      handle_notification img n ++ specClientActsFor img n.seq rest
    else
      specClientActsFor img lastSeq rest

/-- C8 counterexample: a duplicate notification (same sequence as the last
processed one) is still acted upon by the client — it fetches and writes
again, whereas the claimed strictly-greater-sequence filter would act once. -/
theorem c8_counterexample :
    clientActsFor [] [⟨1, []⟩, ⟨1, []⟩] ≠ specClientActsFor [] 0 [⟨1, []⟩, ⟨1, []⟩] := by
  decide

/-- C8 (amended): on startup the client performs the observe request whose
first awaited response is the immediate baseline read of `lastDetection`,
and registers a callback; thereafter it acts on EVERY delivered notification
— one image fetch and one `class` write each, with no sequence comparison
and no filtering of duplicate or stale notifications. -/
theorem c8_client_handles_every_notification (img : List Nat) (notifs : List Notif) :
    (clientTrace img notifs).head? = some ClientAct.baselineRead ∧
    (clientActsFor img notifs).count ClientAct.fetchImage = notifs.length ∧
    (clientActsFor img notifs).count (ClientAct.putClass (infer_jpeg img)) = notifs.length := by
  refine ⟨rfl, ?_, ?_⟩ <;> induction notifs with
  | nil => rfl
  | cons n rest ih =>
    show (handle_notification img n ++ clientActsFor img rest).count _ = _
    rw [List.count_append, ih]
    simp [handle_notification, infer_jpeg, List.count_cons]
    omega

/-! ## The MQTT ingestion path (motion-classification/main.py) -/

/-- A message received from the broker: its topic and raw JPEG payload. -/
structure MqttMsg where
  topic : String
  payload : List Nat
deriving DecidableEq, Repr

/-- `cam_id = parts[2] if len(parts) >= 4 else "unknown"` after
`parts = msg.topic.split("/")` (main.py lines 31–32). -/
def topicCamId (topic : String) : String :=
  let parts := topic.splitOn "/"
  if 4 ≤ parts.length then parts.getD 2 "unknown" else "unknown"

/-- `TOPIC_OUT_FMT.format(id=cam_id)` with the default format
`motion/device/<id>/class` (main.py lines 9 and 37). -/
def outTopic (id : String) : String := "motion/device/" ++ id ++ "/class"

/-- `classify_bgr` (main.py lines 18–26): `"unknown"` for a `None` or empty
image, else `"person"` iff the face detector finds at least one face.
The external cascade call `detectMultiScale` (which may raise) is the
parameter `faceCount`. -/
def classify_bgr (faceCount : List Nat → Except String Nat)
    (img : Option (List Nat)) : Except String String :=
  match img with
  | none => Except.ok "unknown"
  | some i =>
    if i.length = 0 then Except.ok "unknown"
    else
      match faceCount i with
      | Except.ok n => Except.ok (if 0 < n then "person" else "unknown")
      | Except.error e => Except.error e

/-- One published label: topic, payload, `qos=1`, `retain=False`
(main.py line 39). -/
structure Publish where
  topic : String
  label : String
  qos : Nat
  retain : Bool
deriving DecidableEq, Repr

/-- `on_message` (main.py lines 28–42): the whole body runs inside
`try/except`; on success exactly one label is published to the per-device
output topic, on any failure (`imdecode` or the classifier raising) the
exception is caught and nothing is published.  `imdecode` models
`cv2.imdecode` (`ok none` = undecodable image, Python `None`). -/
def on_message (imdecode : List Nat → Except String (Option (List Nat)))
    (faceCount : List Nat → Except String Nat) (m : MqttMsg) : List Publish :=
  match imdecode m.payload with
  | Except.error _ => []
  | Except.ok img =>
    match classify_bgr faceCount img with
    | Except.error _ => []
    | Except.ok label => [⟨outTopic (topicCamId m.topic), label, 1, false⟩]

/-- `client.loop_forever()` dispatching `on_message` per received message. -/
def mqttLoop (imdecode : List Nat → Except String (Option (List Nat)))
    (faceCount : List Nat → Except String Nat) : List MqttMsg → List Publish
  | [] => []
  | m :: rest => on_message imdecode faceCount m ++ mqttLoop imdecode faceCount rest

/-- C9: per received image message, at most one label is published, and
exactly one — to the matching per-device output topic — whenever decoding
and classification succeed; a processing failure for a message publishes
nothing for it and is contained: the publishes of the surrounding messages
are exactly those they would produce on their own. -/
theorem c9_publish_once_and_contained
    (imdecode : List Nat → Except String (Option (List Nat)))
    (faceCount : List Nat → Except String Nat) (m : MqttMsg) (l r : List MqttMsg) :
    (on_message imdecode faceCount m).length ≤ 1 ∧
    (∀ img lbl, imdecode m.payload = Except.ok img →
      classify_bgr faceCount img = Except.ok lbl →
      on_message imdecode faceCount m = [⟨outTopic (topicCamId m.topic), lbl, 1, false⟩]) ∧
    (∀ e, imdecode m.payload = Except.error e → on_message imdecode faceCount m = []) ∧
    (∀ img e, imdecode m.payload = Except.ok img →
      classify_bgr faceCount img = Except.error e →
      on_message imdecode faceCount m = []) ∧
    (mqttLoop imdecode faceCount (l ++ m :: r) =
      mqttLoop imdecode faceCount l ++ on_message imdecode faceCount m ++
        mqttLoop imdecode faceCount r) := by
  refine ⟨?_, ?_, ?_, ?_, ?_⟩
  · unfold on_message
    cases h1 : imdecode m.payload with
    | error e => simp [h1]
    | ok img =>
      simp only [h1]
      cases h2 : classify_bgr faceCount img with
      | error e => simp [h2]
      | ok lbl => simp [h2]
  · intro img lbl h1 h2
    unfold on_message
    simp [h1, h2]
  · intro e h1
    unfold on_message
    simp [h1]
  · intro img e h1 h2
    unfold on_message
    simp [h1, h2]
  · induction l with
    | nil => rfl
    | cons a t ih =>
      show on_message imdecode faceCount a ++ mqttLoop imdecode faceCount (t ++ m :: r) = _
      rw [ih]
      simp [mqttLoop, List.append_assoc]

/-- Witness for C9: a successfully decoded and classified message publishes
exactly one `"person"` label on the device's output topic. -/
theorem c9_witness :
    on_message (fun _ => Except.ok (some [1])) (fun _ => Except.ok 1)
        ⟨"motion/device/cam7/image", [9]⟩ =
      [⟨outTopic (topicCamId "motion/device/cam7/image"), "person", 1, false⟩] :=
  (c9_publish_once_and_contained (fun _ => Except.ok (some [1])) (fun _ => Except.ok 1)
      ⟨"motion/device/cam7/image", [9]⟩ [] []).2.1 (some [1]) "person" rfl rfl
